import Mathlib

/-!
Verification of the chess-puzzle build pipeline (`src/build.ts`).

The TypeScript source is shallowly embedded: every function of the source
that the claims touch is translated to an executable Lean definition of the
same name (strings are Lean `String`s, JavaScript string methods are encoded
character-by-character, exceptions become `Except`, the external chess.js
rules engine becomes an abstract `RulesEngine` record per the design notes
of the spec, section 9).  All scanners that model JavaScript regex replaces
use structural recursion on an explicit fuel (always instantiated with the
length of the scanned list) so that every definition reduces inside the
kernel.
-/

namespace Czesia

/-! ### JavaScript string primitives -/

/-- Whitespace class of JavaScript regexes and `String.prototype.trim`
restricted to ASCII: space, tab, newline, carriage return, vertical tab,
form feed. -/
def isJsWs (c : Char) : Bool :=
  c = ' ' || c = '\t' || c = '\n' || c = '\r' || c = Char.ofNat 11 || c = Char.ofNat 12

/-- Trim on character lists, mirroring `String.prototype.trim`. -/
def trimChars (cs : List Char) : List Char :=
  ((cs.dropWhile isJsWs).reverse.dropWhile isJsWs).reverse

/-- JavaScript `String.prototype.trim`. -/
def jsTrim (s : String) : String :=
  String.mk (trimChars s.data)

/-- JavaScript `a.startsWith(b)`. -/
def jsStartsWith (s pre : String) : Bool :=
  pre.data.isPrefixOf s.data

/-- Splitting a character list at every occurrence of a separator character,
keeping empty pieces, as JavaScript `String.prototype.split` with a
single-character separator does (`"a  b".split(" ") = ["a","","b"]`). -/
def splitOnCharAux (sep : Char) : List Char → List Char → List (List Char)
  | [], acc => [acc.reverse]
  | c :: cs, acc =>
    if c = sep then acc.reverse :: splitOnCharAux sep cs []
    else splitOnCharAux sep cs (c :: acc)

/-- JavaScript `s.split(sep)` for a one-character separator. -/
def jsSplit (sep : Char) (s : String) : List String :=
  (splitOnCharAux sep s.data []).map String.mk

/-- JavaScript `Array.prototype.join(sep)`. -/
def jsJoin (sep : String) (xs : List String) : String :=
  String.mk (List.intercalate sep.data (xs.map String.data))

/-- Hexadecimal digit predicate for `parseInt`. -/
def isHexDigit (c : Char) : Bool :=
  c.isDigit || ('a' ≤ c && c ≤ 'f') || ('A' ≤ c && c ≤ 'F')

/-- Value of a hexadecimal digit. -/
def hexDigitVal (c : Char) : Nat :=
  if c.isDigit then c.toNat - 48
  else if 'a' ≤ c && c ≤ 'f' then c.toNat - 87
  else c.toNat - 55

/-- Fold a run of decimal digits into a number. -/
def decFold (cs : List Char) : Nat :=
  cs.foldl (fun a c => a * 10 + (c.toNat - 48)) 0

/-- Fold a run of hexadecimal digits into a number. -/
def hexFold (cs : List Char) : Nat :=
  cs.foldl (fun a c => a * 16 + hexDigitVal c) 0

/-- JavaScript `parseInt(s)` with no radix argument: skip leading
whitespace, read an optional sign, then either a `0x`/`0X`-prefixed
hexadecimal numeral or a run of decimal digits; trailing garbage is
ignored; `none` models `NaN`. -/
def jsParseInt (s : String) : Option Int :=
  let cs := s.data.dropWhile isJsWs
  let signed : Int × List Char :=
    match cs with
    | '-' :: r => (-1, r)
    | '+' :: r => (1, r)
    | r => (1, r)
  match signed.2 with
  | '0' :: x :: rest =>
    if x = 'x' ∨ x = 'X' then
      let hs := rest.takeWhile isHexDigit
      if hs = [] then none else some (signed.1 * (hexFold hs : Nat))
    else some (signed.1 * (decFold (('0' :: x :: rest).takeWhile Char.isDigit) : Nat))
  | c :: r =>
    if c.isDigit then some (signed.1 * (decFold ((c :: r).takeWhile Char.isDigit) : Nat))
    else none
  | [] => none

/-! ### Data model (`src/build.ts`, Types section) -/

/-- Puzzle type, `"static" | "dynamic"` in the source. -/
inductive PuzzleType where
  | static
  | dynamic
deriving DecidableEq, Repr

/-- Board orientation, `"white" | "black"` in the source. -/
inductive Orientation where
  | white
  | black
deriving DecidableEq, Repr

/-- A decoded solution move, `{from, to}` in the source.  The source field
`from` is a Lean keyword, so it is called `fromSq` here (`to` becomes
`toSq` for symmetry). -/
structure DecodedMove where
  fromSq : String
  toSq : String
deriving DecidableEq, Repr

/-- `interface CollectionInfo`.  The source field `puzzleIdPrefix` is
shortened to `puzzleIdPfx`.  `puzzlesPerFile` is optional in the source;
JavaScript numbers are modelled as `Int`. -/
structure CollectionInfo where
  id : String
  name : String
  source : String
  puzzleIdPfx : String
  defaultType : PuzzleType
  puzzlesPerFile : Option Int
deriving DecidableEq, Repr

/-- `interface Puzzle`. -/
structure Puzzle where
  puzzleId : String
  fen : String
  type : PuzzleType
  orientation : Orientation
  solution : List DecodedMove
  source : String
  motive : String
deriving DecidableEq, Repr

/-- `interface RawPuzzle`. -/
structure RawPuzzle where
  fen : String
  moves : String
  originalId : String
deriving DecidableEq, Repr

/-- `interface Problem`. -/
structure Problem where
  id : String
  name : String
  file : String
deriving DecidableEq, Repr

/-- One element of the `puzzleFiles` array built by `processCollection`:
an output path together with the puzzles written there. -/
structure PuzzleFile where
  path : String
  puzzles : List Puzzle
deriving DecidableEq, Repr

/-! ### Utility functions (`src/build.ts` lines 56-131) -/

/-- `fixFEN` (lines 59-69): if the FEN has at least six space-separated
parts and `parseInt` of the sixth is zero, that part becomes `"1"` and the
parts are re-joined; otherwise the string is returned unchanged. -/
def fixFEN (fen : String) : String :=
  let fenParts := jsSplit ' ' fen
  if 6 ≤ fenParts.length then
    if jsParseInt (fenParts.getD 5 "") = some 0 then
      jsJoin " " (fenParts.set 5 "1")
    else fen
  else fen

/-- `calculateOrientation` (lines 74-87).  The `throw` on a FEN with fewer
than two space-separated parts becomes `Except.error`. -/
def calculateOrientation (fen : String) (type : PuzzleType) : Except String Orientation :=
  let fenParts := jsSplit ' ' fen
  if fenParts.length < 2 then
    .error ("Invalid FEN format: " ++ fen)
  else
    let sideToMove := fenParts.getD 1 ""
    match type with
    | .dynamic => .ok (if sideToMove = "w" then .black else .white)
    | .static => .ok (if sideToMove = "w" then .white else .black)

/-- `path.basename`: the final path component. -/
def basename (p : String) : String :=
  String.mk ((splitOnCharAux '/' p.data []).getLastD p.data)

/-- `path.basename(p, ext)`: as `basename`, additionally stripping a
trailing `ext` when the name is longer than the extension. -/
def basenameExt (p ext : String) : String :=
  let b := basename p
  if ext.data.length < b.data.length ∧ ext.data.isSuffixOf b.data then
    String.mk (b.data.take (b.data.length - ext.data.length))
  else b

/-- The regex replace `replace(/^\d+_/, "")`: drop a maximal non-empty run
of leading digits when it is immediately followed by an underscore. -/
def dropNumUnderscore (cs : List Char) : List Char :=
  let ds := cs.takeWhile Char.isDigit
  if ds ≠ [] ∧ (cs.drop ds.length).head? = some '_' then
    (cs.drop ds.length).tail
  else cs

/-- Word capitalisation of `extractMotive`:
`word.charAt(0).toUpperCase() + word.slice(1).toLowerCase()`. -/
def capitalizeWord (w : List Char) : List Char :=
  match w with
  | [] => []
  | c :: cs => c.toUpper :: cs.map Char.toLower

/-- `extractMotive` (lines 93-100). -/
def extractMotive (filename : String) : String :=
  let nameWithoutExt := basenameExt filename ".pgn"
  let motivePart := dropNumUnderscore nameWithoutExt.data
  String.mk (List.intercalate [' '] ((splitOnCharAux '_' motivePart []).map capitalizeWord))

/-- `extractFileNumber` (lines 106-109): the match of `/^(\d+)_/` against
the basename, or `none`. -/
def extractFileNumber (filename : String) : Option String :=
  let cs := (basename filename).data
  let ds := cs.takeWhile Char.isDigit
  if ds ≠ [] ∧ (cs.drop ds.length).head? = some '_' then some (String.mk ds) else none

/-- `extractMotiveSlug` (lines 115-119). -/
def extractMotiveSlug (filename : String) : String :=
  let nameWithoutExt := basenameExt filename ".pgn"
  let motivePart := dropNumUnderscore nameWithoutExt.data
  String.mk (motivePart.map Char.toLower)

/-- Loop body of `splitIntoChunks` for a positive size: successive slices
`arr.slice(i, i + size)`.  The fuel argument is always called with
`arr.length`, which suffices because each step consumes at least one
element; the fuel-exhausted fallback is unreachable under that discipline. -/
def chunksGo (size : Nat) : Nat → List α → List (List α)
  | _, [] => []
  | 0, l => [l]
  | fuel + 1, x :: xs => ((x :: xs).take size) :: chunksGo size fuel (xs.drop (size - 1))

/-- `splitIntoChunks` (lines 124-131): `size <= 0` short-circuits to a
single chunk holding the whole array; otherwise sequential fixed-size
slicing. -/
def splitIntoChunks (arr : List α) (size : Int) : List (List α) :=
  if size ≤ 0 then [arr] else chunksGo size.toNat arr.length arr

/-- The chunk-size computation at the call sites (lines 319 and 409):
`info.puzzlesPerFile || allPuzzles.length`, where both `undefined` and `0`
are falsy. -/
def chunkSizeOf (puzzlesPerFile : Option Int) (totalPuzzles : Nat) : Int :=
  match puzzlesPerFile with
  | some n => if n = 0 then (totalPuzzles : Int) else n
  | none => (totalPuzzles : Int)

/-! ### PGN tokenizer (`parsePGN`, lines 140-215) -/

/-- Mutable scan state of `parsePGN`: current FEN, current original id,
accumulating moves buffer, emitted-record counter and emitted records. -/
structure ParseState where
  currentFen : Option String
  currentOriginalId : Option String
  currentMoves : List String
  puzzleIndex : Nat
  puzzles : List RawPuzzle
deriving DecidableEq, Repr

/-- The initial state of the `parsePGN` scan. -/
def initParseState : ParseState :=
  { currentFen := none, currentOriginalId := none, currentMoves := [],
    puzzleIndex := 0, puzzles := [] }

/-- The fallback `currentOriginalId || String(puzzleIndex)`: a null or
empty id is replaced by the decimal ordinal. -/
def origIdOr (id : Option String) (idx : Nat) : String :=
  match id with
  | some s => if s = "" then toString idx else s
  | none => toString idx

/-- `savePuzzle` (lines 151-163): emit a record when a (truthy) FEN and a
non-empty moves buffer are present, then always reset FEN, original id and
moves buffer. -/
def savePuzzle (st : ParseState) : ParseState :=
  match st.currentFen with
  | some f =>
    if f ≠ "" ∧ st.currentMoves ≠ [] then
      let idx := st.puzzleIndex + 1
      { currentFen := none, currentOriginalId := none, currentMoves := [],
        puzzleIndex := idx,
        puzzles := st.puzzles ++
          [{ fen := f, moves := jsTrim (jsJoin " " st.currentMoves),
             originalId := origIdOr st.currentOriginalId idx }] }
    else
      { st with currentFen := none, currentOriginalId := none, currentMoves := [] }
  | none =>
    { st with currentFen := none, currentOriginalId := none, currentMoves := [] }

/-- Anchored attempt of the regex `\[TAG\s+"([^"]+)"\]` at the head of a
character list: a literal opening bracket and tag name, one or more
whitespace characters, a quote, a non-empty run of non-quote characters
(the capture), a quote and a closing bracket. -/
def tagMatchAt (tag : List Char) (cs : List Char) : Option (List Char) :=
  match cs with
  | '[' :: rest =>
    if tag.isPrefixOf rest then
      let after := rest.drop tag.length
      let ws := (after.takeWhile isJsWs).length
      if ws = 0 then none
      else
        match after.drop ws with
        | '"' :: rest2 =>
          let cap := rest2.takeWhile (· ≠ '"')
          if cap = [] then none
          else
            match rest2.drop cap.length with
            | '"' :: ']' :: _ => some cap
            | _ => none
        | _ => none
    else none
  | _ => none

/-- Unanchored regex search for `\[TAG\s+"([^"]+)"\]`, trying every start
position from the left as a JavaScript `match` does. -/
def tagSearch (tag : List Char) : List Char → Option (List Char)
  | [] => none
  | c :: cs =>
    match tagMatchAt tag (c :: cs) with
    | some cap => some cap
    | none => tagSearch tag cs

/-- The capture group of `line.match(/\[TAG\s+"([^"]+)"\]/)`. -/
def tagCapture (tag : String) (line : String) : Option String :=
  (tagSearch tag.data line.data).map String.mk

/-- One iteration of the line loop of `parsePGN` (lines 165-209). -/
def stepLine (st : ParseState) (rawLine : String) : ParseState :=
  let line := jsTrim rawLine
  if jsStartsWith line "[OriginalID" then
    let st' := savePuzzle st
    match tagCapture "OriginalID" line with
    | some id => { st' with currentOriginalId := some id }
    | none => st'
  else if jsStartsWith line "[Event" then
    savePuzzle st
  else if jsStartsWith line "[FEN" then
    match tagCapture "FEN" line with
    | some fen => if fen ≠ "" then { st with currentFen := some (fixFEN fen) } else st
    | none => st
  else if jsStartsWith line "[" then st
  else if line = "" then st
  else { st with currentMoves := st.currentMoves ++ [line] }

/-- Line-ending normalisation of `parsePGN` (line 143): every CRLF pair and
every remaining CR becomes LF, in one left-to-right pass (equivalent to the
two sequential global replaces of the source). -/
def normNL : List Char → List Char
  | [] => []
  | '\r' :: '\n' :: cs => '\n' :: normNL cs
  | '\r' :: cs => '\n' :: normNL cs
  | c :: cs => c :: normNL cs

/-- `parsePGN` (lines 140-215): normalise line endings, split into lines,
scan them through `stepLine`, and finalise the last pending buffer. -/
def parsePGN (pgnContent : String) : List RawPuzzle :=
  let lines := (splitOnCharAux '\n' (normNL pgnContent.data) []).map String.mk
  (savePuzzle (lines.foldl stepLine initParseState)).puzzles

/-! ### Move decoder (`parseMoves`, lines 220-268)

The decoder cleans the raw moves string with a pipeline of regex replaces
and then replays the remaining tokens against the chess.js rules engine.
Each replace is modelled by a fuel-indexed scanner over the character
list; the fuel is the length of the list, which each step strictly
consumes. -/

/-- Match of one alternative of `/\s+\*|\s+1-0|\s+0-1|\s+1\/2-1\/2/` at the
head of the list, returning the number of consumed characters.  Each
alternative starts with a maximal non-empty whitespace run (shortening the
run can never make the following literal match, so maximality is faithful
to the backtracking semantics). -/
def resultMarkerAt (cs : List Char) : Option Nat :=
  let ws := (cs.takeWhile isJsWs).length
  if ws = 0 then none
  else
    let rest := cs.drop ws
    if ['*'].isPrefixOf rest then some (ws + 1)
    else if ['1', '-', '0'].isPrefixOf rest then some (ws + 3)
    else if ['0', '-', '1'].isPrefixOf rest then some (ws + 3)
    else if ['1', '/', '2', '-', '1', '/', '2'].isPrefixOf rest then some (ws + 7)
    else none

/-- Global replace of game-result markers by the empty string (line 225). -/
def removeResultMarkers : Nat → List Char → List Char
  | _, [] => []
  | 0, cs => cs
  | fuel + 1, c :: cs =>
    match resultMarkerAt (c :: cs) with
    | some k => removeResultMarkers fuel (List.drop (k - 1) cs)
    | none => c :: removeResultMarkers fuel cs

/-- Global replace `replace(/\([^)]*\)/g, "")` (line 228): an opening
parenthesis, a maximal run without closing parentheses, and a closing
parenthesis. -/
def removeParens : Nat → List Char → List Char
  | _, [] => []
  | 0, cs => cs
  | fuel + 1, c :: cs =>
    if c = '(' then
      let inner := cs.takeWhile (· ≠ ')')
      match cs.drop inner.length with
      | ')' :: _ => removeParens fuel (cs.drop (inner.length + 1))
      | _ => c :: removeParens fuel cs
    else c :: removeParens fuel cs

/-- Global replace of curly-brace comments (line 231), with the brace
characters written via their code points. -/
def removeBraces : Nat → List Char → List Char
  | _, [] => []
  | 0, cs => cs
  | fuel + 1, c :: cs =>
    if c = Char.ofNat 123 then
      let inner := cs.takeWhile (· ≠ Char.ofNat 125)
      match cs.drop inner.length with
      | b :: _ =>
        if b = Char.ofNat 125 then removeBraces fuel (cs.drop (inner.length + 1))
        else c :: removeBraces fuel cs
      | _ => c :: removeBraces fuel cs
    else c :: removeBraces fuel cs

/-- Match of `/\d+\.\s*\.\.\.\s*/` at the head of the list (line 235),
returning the consumed length. -/
def moveNumEllipsisAt (cs : List Char) : Option Nat :=
  let ds := (cs.takeWhile Char.isDigit).length
  if ds = 0 then none
  else
    match cs.drop ds with
    | '.' :: rest =>
      let ws1 := (rest.takeWhile isJsWs).length
      let rest2 := rest.drop ws1
      if ['.', '.', '.'].isPrefixOf rest2 then
        let ws2 := ((rest2.drop 3).takeWhile isJsWs).length
        some (ds + 1 + ws1 + 3 + ws2)
      else none
    | _ => none

/-- Global replace of `/\d+\.\s*\.\.\.\s*/` by the empty string. -/
def removeMoveNumEllipsis : Nat → List Char → List Char
  | _, [] => []
  | 0, cs => cs
  | fuel + 1, c :: cs =>
    match moveNumEllipsisAt (c :: cs) with
    | some k => removeMoveNumEllipsis fuel (List.drop (k - 1) cs)
    | none => c :: removeMoveNumEllipsis fuel cs

/-- Match of `/\d+\.\s*/` at the head of the list (line 236). -/
def moveNumAt (cs : List Char) : Option Nat :=
  let ds := (cs.takeWhile Char.isDigit).length
  if ds = 0 then none
  else
    match cs.drop ds with
    | '.' :: rest => some (ds + 1 + (rest.takeWhile isJsWs).length)
    | _ => none

/-- Global replace of `/\d+\.\s*/` by the empty string. -/
def removeMoveNums : Nat → List Char → List Char
  | _, [] => []
  | 0, cs => cs
  | fuel + 1, c :: cs =>
    match moveNumAt (c :: cs) with
    | some k => removeMoveNums fuel (List.drop (k - 1) cs)
    | none => c :: removeMoveNums fuel cs

/-- Global replace of the literal `...` by the empty string (line 237). -/
def removeEllipses : Nat → List Char → List Char
  | _, [] => []
  | 0, cs => cs
  | fuel + 1, c :: cs =>
    if ['.', '.', '.'].isPrefixOf (c :: cs) then removeEllipses fuel (cs.drop 2)
    else c :: removeEllipses fuel cs

/-- The replace `replace(/[()\[\]]/g, " ")` (line 241): every parenthesis
or square bracket becomes a space. -/
def bracketsToSpaces (cs : List Char) : List Char :=
  cs.map (fun c => if c = '(' ∨ c = ')' ∨ c = '[' ∨ c = ']' then ' ' else c)

/-- JavaScript `split(/\s+/)` (line 244): pieces between maximal
whitespace runs, keeping empty boundary pieces. -/
def splitWsAux : Nat → List Char → List Char → List (List Char)
  | _, acc, [] => [acc.reverse]
  | 0, acc, rest => [acc.reverse ++ rest]
  | fuel + 1, acc, c :: cs =>
    if isJsWs c then acc.reverse :: splitWsAux fuel [] (cs.dropWhile isJsWs)
    else splitWsAux fuel (c :: acc) cs

/-- The token filter of lines 244-251: keep a token when its trim is
non-empty, not `"."`, not `".."`, not a run of dots and not a run of
digits. -/
def tokenKeep (t : List Char) : Bool :=
  let trimmed := trimChars t
  !trimmed.isEmpty && !(trimmed == ['.']) && !(trimmed == ['.', '.']) &&
    !(trimmed.all (· = '.')) && !(trimmed.all Char.isDigit)

/-- The full cleaning pipeline of `parseMoves` (lines 225-251), producing
the list of move tokens handed to the replay loop. -/
def moveTokens (movesString : String) : List String :=
  let s1 := trimChars (removeResultMarkers movesString.data.length movesString.data)
  let s2 := removeParens s1.length s1
  let s3 := removeBraces s2.length s2
  let s4 := removeMoveNumEllipsis s3.length s3
  let s5 := removeMoveNums s4.length s4
  let s6 := trimChars (removeEllipses s5.length s5)
  let s7 := bracketsToSpaces s6
  ((splitWsAux s7.length [] s7).filter tokenKeep).map String.mk

/-! ### The rules engine and the replay loop

The chess.js dependency is external to the repository; following the
design notes of the spec (section 9) it is modelled as an abstract
capability: initialisation at a position may fail (chess.js throws on a
rejected FEN), and attempting a move token either advances the engine and
yields origin/destination coordinates or fails (chess.js returns null or
throws; `parseMoves` treats both identically). -/

structure RulesEngine where
  State : Type
  init : String → Option State
  move : State → String → Option (State × DecodedMove)

/-- The replay loop of `parseMoves` (lines 253-265): tokens are attempted
strictly sequentially; a successful move appends one coordinate pair and
advances the engine; a failed token is skipped with the engine state
retained. -/
def replay (E : RulesEngine) : E.State → List String → List DecodedMove
  | _, [] => []
  | st, t :: ts =>
    let trimmed := jsTrim t
    if trimmed = "" then replay E st ts
    else
      match E.move st trimmed with
      | some (st', mv) => mv :: replay E st' ts
      | none => replay E st ts

/-- The number of legally replayable tokens of a token list, counted under
the same sequential engine semantics as the replay loop. -/
def legalCount (E : RulesEngine) : E.State → List String → Nat
  | _, [] => 0
  | st, t :: ts =>
    let trimmed := jsTrim t
    if trimmed = "" then legalCount E st ts
    else
      match E.move st trimmed with
      | some (st', _) => legalCount E st' ts + 1
      | none => legalCount E st ts

/-- `parseMoves` (lines 220-268).  `new Chess(fen)` sits outside every
try/catch of the function, so a starting position the engine rejects at
initialisation propagates as an exception, modelled by `Except.error`. -/
def parseMoves (E : RulesEngine) (fen movesString : String) : Except String (List DecodedMove) :=
  match E.init fen with
  | none => .error ("Invalid FEN: " ++ fen)
  | some chess => .ok (replay E chess (moveTokens movesString))

/-! ### Build process (`processCollection`, lines 335-456)

The per-file part of `processCollection` is embedded: raw records are
assembled into puzzles (lines 383-406), chunked (lines 409-411) and turned
into problem entries and output files (lines 416-452).  The undefined
property access `chunk[0].originalId` on an empty chunk (line 434) throws
a `TypeError` in JavaScript; it is modelled by `Except.error`. -/

/-- The assembly loop of lines 383-406: for each raw record, decode the
moves (a throwing decoder call is caught, logged and skipped), skip the
record when no move decodes, compute the orientation (a throw is caught by
the same catch), and otherwise keep one puzzle (with a placeholder id)
paired with the record's original id. -/
def buildPuzzles (E : RulesEngine) (info : CollectionInfo) (motive : String) :
    List RawPuzzle → List (Puzzle × String)
  | [] => []
  | raw :: rest =>
    match parseMoves E raw.fen raw.moves with
    | .error _ => buildPuzzles E info motive rest
    | .ok solution =>
      if solution.length = 0 then buildPuzzles E info motive rest
      else
        match calculateOrientation raw.fen info.defaultType with
        | .error _ => buildPuzzles E info motive rest
        | .ok orientation =>
          ({ puzzleId := "", fen := raw.fen, type := info.defaultType,
             orientation := orientation, solution := solution,
             source := info.source, motive := motive }, raw.originalId)
            :: buildPuzzles E info motive rest

/-- The chunk loop of lines 418-452.  `i` is the zero-based loop index;
the part number is `i + 1`.  Reading `chunk[0]`/`chunk[chunk.length - 1]`
of an empty chunk is the modelled `TypeError`. -/
def processChunks (info : CollectionInfo) (fileNumber motiveSlug motive : String)
    (needsSplit : Bool) (i : Nat) : List (List (Puzzle × String)) →
    Except String (List (Problem × PuzzleFile))
  | [] => .ok []
  | chunk :: rest =>
    let partNumber := i + 1
    let filePref := if needsSplit then fileNumber ++ "-" ++ toString partNumber else fileNumber
    let jsonFilename := filePref ++ "_" ++ motiveSlug ++ ".json"
    let puzzles := chunk.map (fun pr =>
      { pr.1 with puzzleId :=
          if needsSplit then
            info.puzzleIdPfx ++ "-" ++ fileNumber ++ "-" ++ toString partNumber ++ "-" ++ pr.2
          else
            info.puzzleIdPfx ++ "-" ++ fileNumber ++ "-" ++ pr.2 })
    match chunk.head?, chunk.getLast? with
    | some first, some last =>
      let problemName :=
        if needsSplit then motive ++ " (" ++ first.2 ++ "-" ++ last.2 ++ ")" else motive
      Except.map
        (fun entries =>
          (⟨filePref ++ "_" ++ motiveSlug, problemName, jsonFilename⟩,
           ⟨"data/" ++ info.id ++ "/" ++ jsonFilename, puzzles⟩) :: entries)
        (processChunks info fileNumber motiveSlug motive needsSplit (i + 1) rest)
    | _, _ => .error "TypeError: Cannot read properties of undefined (reading 'originalId')"

/-- The body of the per-PGN-file loop of `processCollection`
(lines 363-452) for one file: a filename without the numeric prefix is
skipped (producing nothing), otherwise the file content is tokenized,
assembled, chunked and turned into problem entries and puzzle files. -/
def processPgnFile (E : RulesEngine) (info : CollectionInfo) (pgnFile content : String) :
    Except String (List (Problem × PuzzleFile)) :=
  match extractFileNumber pgnFile with
  | none => .ok []
  | some fileNumber =>
    let motiveSlug := extractMotiveSlug pgnFile
    let motive := extractMotive pgnFile
    let rawPuzzles := parsePGN content
    let allPuzzles := buildPuzzles E info motive rawPuzzles
    let chunkSize := chunkSizeOf info.puzzlesPerFile allPuzzles.length
    let chunks := splitIntoChunks allPuzzles chunkSize
    let needsSplit := decide (1 < chunks.length)
    processChunks info fileNumber motiveSlug motive needsSplit 0 chunks

/-- All puzzle ids appearing in the output of one processed file, in file
order; an aborted file contributes none. -/
def puzzleIdsOf (r : Except String (List (Problem × PuzzleFile))) : List String :=
  match r with
  | .ok es => (es.map (fun e => e.2.puzzles.map (fun p => p.puzzleId))).flatten
  | .error _ => []

/-! ### Concrete rules-engine instances

Each instance mirrors the documented behaviour of chess.js on the specific
legal inputs that a witness or counterexample feeds it; everything outside
those inputs is rejected. -/

/-- An engine that rejects every starting position at initialisation, as
chess.js does for a malformed FEN. -/
@[reducible] def rejectInitEngine : RulesEngine where
  State := Nat
  init := fun _ => none
  move := fun _ _ => none

/-- An engine that accepts every starting position and rejects every move
token, as chess.js does when no token is a legal move. -/
@[reducible] def noMoveEngine : RulesEngine where
  State := Nat
  init := fun _ => some 0
  move := fun _ _ => none

/-- An engine for the position `k7/8/8/8/8/8/4P3/K7 w - - 0 1`, on which
chess.js accepts the single legal-move token `e4` (pawn e2 to e4). -/
@[reducible] def e4Engine : RulesEngine where
  State := Nat
  init := fun f => if f = "k7/8/8/8/8/8/4P3/K7 w - - 0 1" then some 0 else none
  move := fun s t =>
    if s = 0 ∧ t = "e4" then some (1, ⟨"e2", "e4"⟩) else none

/-- An engine for the end-to-end scenario position of the spec, section 8:
chess.js accepts `Rd1-d5` then `Ba4-c6` from
`6k1/5pp1/7p/3p4/b7/6P1/5PKP/3R4 w - - 0 1` in non-strict mode. -/
@[reducible] def pinEngine : RulesEngine where
  State := Nat
  init := fun f => if f = "6k1/5pp1/7p/3p4/b7/6P1/5PKP/3R4 w - - 0 1" then some 0 else none
  move := fun s t =>
    if s = 0 ∧ t = "Rd1-d5" then some (1, ⟨"d1", "d5"⟩)
    else if s = 1 ∧ t = "Ba4-c6" then some (2, ⟨"a4", "c6"⟩)
    else none

/-- A two-move test engine used to exercise the replay loop: from state 0
the token `a` succeeds, every other token fails; from state 1 the token
`b` succeeds. -/
@[reducible] def abEngine : RulesEngine where
  State := Nat
  init := fun f => if f = "F w" then some 0 else none
  move := fun s t =>
    if s = 0 ∧ t = "a" then some (1, ⟨"a2", "a4"⟩)
    else if s = 1 ∧ t = "b" then some (2, ⟨"b7", "b5"⟩)
    else none

/-! ### Helper lemmas about the chunker -/

theorem chunksGo_nil (size fuel : Nat) : chunksGo size fuel ([] : List α) = [] := by
  cases fuel <;> rfl

theorem chunksGo_flatten (size : Nat) (hs : 1 ≤ size) (fuel : Nat) (l : List α) :
    (chunksGo size fuel l).flatten = l := by
  induction fuel generalizing l with
  | zero =>
    cases l with
    | nil => rfl
    | cons x xs => simp [chunksGo]
  | succ f ih =>
    cases l with
    | nil => rfl
    | cons x xs =>
      simp only [chunksGo, List.flatten_cons, ih]
      rw [List.take_cons (show 0 < size by omega)]
      simp [List.take_append_drop]

theorem chunksGo_length_le (size fuel : Nat) (l : List α) (hf : l.length ≤ fuel) :
    ∀ c ∈ chunksGo size fuel l, c.length ≤ size := by
  induction fuel generalizing l with
  | zero =>
    have : l = [] := List.eq_nil_of_length_eq_zero (Nat.le_zero.mp hf)
    subst this
    simp [chunksGo]
  | succ f ih =>
    cases l with
    | nil => simp [chunksGo]
    | cons x xs =>
      intro c hc
      simp only [chunksGo, List.mem_cons] at hc
      rcases hc with hc | hc
      · subst hc; exact List.length_take_le _ _
      · refine ih (xs.drop (size - 1)) ?_ c hc
        have h1 : (xs.drop (size - 1)).length = xs.length - (size - 1) := List.length_drop _ _
        simp only [List.length_cons] at hf
        omega

theorem chunksGo_getElem? (size : Nat) (hs : 1 ≤ size) (fuel : Nat) (l : List α)
    (hf : l.length ≤ fuel) (k : Nat) :
    (chunksGo size fuel l)[k]? =
      if l.length ≤ k * size then none else some ((l.drop (k * size)).take size) := by
  induction fuel generalizing l k with
  | zero =>
    have : l = [] := List.eq_nil_of_length_eq_zero (Nat.le_zero.mp hf)
    subst this
    simp [chunksGo]
  | succ f ih =>
    cases l with
    | nil => simp [chunksGo]
    | cons x xs =>
      cases k with
      | zero =>
        simp [chunksGo]
      | succ k =>
        simp only [chunksGo, List.getElem?_cons_succ]
        have hlen : (xs.drop (size - 1)).length ≤ f := by
          have := List.length_drop (size - 1) xs
          simp only [List.length_cons] at hf
          omega
        rw [ih _ hlen k]
        rw [List.drop_drop]
        have hmul : (k + 1) * size = (size - 1 + k * size) + 1 := by
          obtain ⟨s, rfl⟩ := Nat.exists_eq_add_of_le hs
          ring_nf
          omega
        rw [hmul, List.drop_succ_cons]
        refine if_congr ?_ rfl rfl
        rw [List.length_drop]
        simp only [List.length_cons]
        omega

theorem chunksGo_eq_singleton (size fuel : Nat) (l : List α) (hne : l ≠ [])
    (hle : l.length ≤ size) (hf : l.length ≤ fuel) : chunksGo size fuel l = [l] := by
  cases l with
  | nil => exact absurd rfl hne
  | cons x xs =>
    cases fuel with
    | zero => simp at hf
    | succ f =>
      simp only [chunksGo]
      rw [List.take_of_length_le hle]
      rw [List.drop_eq_nil_of_le (by simp only [List.length_cons] at hle; omega)]
      rw [chunksGo_nil]

/-! ### Claims C3 and C10: the chunking law -/

/-- Claim C3, counterexample.  The claim asserts that exactly one chunk
exists whenever the configured maximum is at least the total count; for an
empty per-file puzzle list and maximum 1 the premise holds (1 ≥ 0) yet
`splitIntoChunks` produces zero chunks, because its slicing loop never
runs on an empty array. -/
theorem c3_empty_list_zero_chunks_counterexample :
    (([] : List Nat)).length ≤ (1 : Int) ∧ (splitIntoChunks ([] : List Nat) 1).length ≠ 1 := by
  decide

/-- Claim C3, amended: concatenating all chunks in order reproduces the
original list for every size; no chunk exceeds a positive maximum `m`;
exactly one chunk exists when the maximum is unset (the call sites then
use the total count as the size), or when `m` is at least the total count
and the list is non-empty; and chunk `k` (zero-based) holds exactly the
items at positions `[k*m, (k+1)*m)`.  An empty list with a positive
configured maximum yields zero chunks (the counterexample), not one. -/
theorem c3_chunking_law_amended :
    (∀ (α : Type) (l : List α) (m : Int), (splitIntoChunks l m).flatten = l)
    ∧ (∀ (α : Type) (l : List α) (m : Nat), 1 ≤ m →
        ∀ c ∈ splitIntoChunks l (m : Int), c.length ≤ m)
    ∧ (∀ (α : Type) (l : List α), splitIntoChunks l (chunkSizeOf none l.length) = [l])
    ∧ (∀ (α : Type) (l : List α) (m : Nat), 1 ≤ m → l ≠ [] → l.length ≤ m →
        splitIntoChunks l (m : Int) = [l])
    ∧ (∀ (α : Type) (l : List α) (m k : Nat), 1 ≤ m →
        (splitIntoChunks l (m : Int))[k]? =
          if l.length ≤ k * m then none else some ((l.drop (k * m)).take m)) := by
  refine ⟨?_, ?_, ?_, ?_, ?_⟩
  · intro α l m
    unfold splitIntoChunks
    split
    · simp
    · exact chunksGo_flatten m.toNat (by omega) l.length l
  · intro α l m hm c hc
    unfold splitIntoChunks at hc
    rw [if_neg (by omega)] at hc
    have : ((m : Int)).toNat = m := Int.toNat_natCast m
    rw [this] at hc
    exact chunksGo_length_le m l.length l le_rfl c hc
  · intro α l
    cases l with
    | nil => rfl
    | cons x xs =>
      show splitIntoChunks (x :: xs) ((x :: xs).length : Int) = [x :: xs]
      unfold splitIntoChunks
      rw [if_neg (by simp)]
      rw [Int.toNat_natCast]
      exact chunksGo_eq_singleton _ _ _ (by simp) le_rfl le_rfl
  · intro α l m hm hne hle
    unfold splitIntoChunks
    rw [if_neg (by omega), Int.toNat_natCast]
    exact chunksGo_eq_singleton _ _ _ hne hle le_rfl
  · intro α l m k hm
    unfold splitIntoChunks
    rw [if_neg (by omega), Int.toNat_natCast]
    exact chunksGo_getElem? m hm l.length l le_rfl k

/-- Witness for the amended chunking law at concrete inputs. -/
theorem c3_chunking_law_amended_witness :
    (splitIntoChunks ([1, 2, 3, 4, 5] : List Nat) 2).flatten = [1, 2, 3, 4, 5]
    ∧ (∀ c ∈ splitIntoChunks ([1, 2, 3, 4, 5] : List Nat) (((2 : Nat) : Int)), c.length ≤ 2)
    ∧ splitIntoChunks ([1, 2, 3] : List Nat) (chunkSizeOf none 3) = [[1, 2, 3]]
    ∧ splitIntoChunks ([1, 2, 3] : List Nat) (((5 : Nat) : Int)) = [[1, 2, 3]]
    ∧ (splitIntoChunks ([1, 2, 3, 4, 5] : List Nat) (((2 : Nat) : Int)))[1]? = some [3, 4] :=
  ⟨c3_chunking_law_amended.1 Nat [1, 2, 3, 4, 5] 2,
   c3_chunking_law_amended.2.1 Nat [1, 2, 3, 4, 5] 2 (by decide),
   c3_chunking_law_amended.2.2.1 Nat [1, 2, 3],
   c3_chunking_law_amended.2.2.2.1 Nat [1, 2, 3] 5 (by decide) (by decide) (by decide),
   by rw [c3_chunking_law_amended.2.2.2.2 Nat [1, 2, 3, 4, 5] 2 1 (by decide)]; decide⟩

/-- Claim C10, counterexample.  The claim asserts that a file whose
usable-puzzle list is empty produces exactly one empty chunk; with a
configured positive `puzzlesPerFile` (here 2) the chunk size stays 2 (it
is truthy), and the empty list yields zero chunks, not one. -/
theorem c10_positive_size_empty_list_counterexample :
    splitIntoChunks ([] : List Nat) (chunkSizeOf (some 2) ([] : List Nat).length) = []
    ∧ splitIntoChunks ([] : List Nat) (chunkSizeOf (some 2) ([] : List Nat).length) ≠ [[]] := by
  decide

/-- Claim C10, amended: `splitIntoChunks` returns the single chunk
`[arr]` for every size at most 0; a `puzzlesPerFile` of 0 is falsy in
`puzzlesPerFile || totalPuzzles`, so the chunk size becomes the total
count and one chunk holds all puzzles; and a file whose usable-puzzle
list is empty produces exactly one empty chunk provided `puzzlesPerFile`
is unset or 0 (with a positive `puzzlesPerFile` it produces zero
chunks, per the counterexample). -/
theorem c10_chunker_edge_cases_amended :
    (∀ (α : Type) (arr : List α) (size : Int), size ≤ 0 → splitIntoChunks arr size = [arr])
    ∧ (∀ (α : Type) (arr : List α),
        splitIntoChunks arr (chunkSizeOf (some 0) arr.length) = [arr])
    ∧ (∀ pf : Option Int, pf = none ∨ pf = some 0 →
        splitIntoChunks ([] : List Nat) (chunkSizeOf pf 0) = [[]]) := by
  refine ⟨?_, ?_, ?_⟩
  · intro α arr size hle
    unfold splitIntoChunks
    rw [if_pos hle]
  · intro α arr
    show splitIntoChunks arr (chunkSizeOf (some 0) arr.length) = [arr]
    have h0 : chunkSizeOf (some 0) arr.length = (arr.length : Int) := by
      simp [chunkSizeOf]
    rw [h0]
    cases arr with
    | nil => rfl
    | cons x xs =>
      unfold splitIntoChunks
      rw [if_neg (by simp), Int.toNat_natCast]
      exact chunksGo_eq_singleton _ _ _ (by simp) le_rfl le_rfl
  · intro pf hpf
    rcases hpf with rfl | rfl <;> rfl

/-- Witness for the amended chunker edge cases at concrete inputs. -/
theorem c10_chunker_edge_cases_amended_witness :
    splitIntoChunks ([7, 8] : List Nat) (-3) = [[7, 8]]
    ∧ splitIntoChunks ([7, 8] : List Nat) (chunkSizeOf (some 0) 2) = [[7, 8]]
    ∧ splitIntoChunks ([] : List Nat) (chunkSizeOf (some 0) 0) = [[]] :=
  ⟨c10_chunker_edge_cases_amended.1 Nat [7, 8] (-3) (by decide),
   c10_chunker_edge_cases_amended.2.1 Nat [7, 8],
   c10_chunker_edge_cases_amended.2.2 (some 0) (Or.inr rfl)⟩

/-! ### Claim C5: the orientation law -/

/-- Claim C5, confirmed: for a FEN whose second space-separated field is
`"w"`, a static puzzle is oriented white and a dynamic one black; for a
second field `"b"`, a static puzzle is oriented black and a dynamic one
white.  (`calculateOrientation` splits on single spaces; "field" here is
exactly the code's notion.) -/
theorem c5_orientation_law :
    (∀ fen : String, 2 ≤ (jsSplit ' ' fen).length → (jsSplit ' ' fen).getD 1 "" = "w" →
      calculateOrientation fen .static = .ok .white
      ∧ calculateOrientation fen .dynamic = .ok .black)
    ∧ (∀ fen : String, 2 ≤ (jsSplit ' ' fen).length → (jsSplit ' ' fen).getD 1 "" = "b" →
      calculateOrientation fen .static = .ok .black
      ∧ calculateOrientation fen .dynamic = .ok .white) := by
  constructor
  · intro fen hlen hw
    constructor
    · unfold calculateOrientation
      rw [if_neg (by omega)]
      simp only [hw]
      rfl
    · unfold calculateOrientation
      rw [if_neg (by omega)]
      simp only [hw]
      rfl
  · intro fen hlen hb
    constructor
    · unfold calculateOrientation
      rw [if_neg (by omega)]
      simp only [hb]
      rw [if_neg (by decide)]
    · unfold calculateOrientation
      rw [if_neg (by omega)]
      simp only [hb]
      rw [if_neg (by decide)]

/-- Witness for the orientation law at two concrete FENs. -/
theorem c5_orientation_law_witness :
    (calculateOrientation "k7/8/8/8/8/8/4P3/K7 w - - 0 1" .static = .ok .white
      ∧ calculateOrientation "k7/8/8/8/8/8/4P3/K7 w - - 0 1" .dynamic = .ok .black)
    ∧ (calculateOrientation "k7/8/8/8/8/8/4P3/K7 b - - 0 1" .static = .ok .black
      ∧ calculateOrientation "k7/8/8/8/8/8/4P3/K7 b - - 0 1" .dynamic = .ok .white) :=
  ⟨c5_orientation_law.1 "k7/8/8/8/8/8/4P3/K7 w - - 0 1" (by decide) (by decide),
   c5_orientation_law.2 "k7/8/8/8/8/8/4P3/K7 b - - 0 1" (by decide) (by decide)⟩

/-! ### Claim C6: the FEN fullmove fix -/

/-- Claim C6, confirmed: when the FEN has at least six space-separated
fields and the sixth parses to zero, `fixFEN` rewrites exactly that field
to `"1"` and re-joins the fields; when the sixth field parses to a
non-zero number, or when the FEN has fewer than six fields, the string is
returned unchanged. -/
theorem c6_fen_fullmove_fix :
    (∀ fen : String, 6 ≤ (jsSplit ' ' fen).length →
      jsParseInt ((jsSplit ' ' fen).getD 5 "") = some 0 →
      fixFEN fen = jsJoin " " ((jsSplit ' ' fen).set 5 "1"))
    ∧ (∀ (fen : String) (k : Int), 6 ≤ (jsSplit ' ' fen).length →
      jsParseInt ((jsSplit ' ' fen).getD 5 "") = some k → k ≠ 0 →
      fixFEN fen = fen)
    ∧ (∀ fen : String, (jsSplit ' ' fen).length < 6 → fixFEN fen = fen) := by
  refine ⟨?_, ?_, ?_⟩
  · intro fen hlen hzero
    unfold fixFEN
    rw [if_pos hlen, if_pos hzero]
  · intro fen k hlen hk hne
    unfold fixFEN
    rw [if_pos hlen, if_neg (by rw [hk]; simp [hne])]
  · intro fen hlen
    unfold fixFEN
    rw [if_neg (by omega)]

/-- Witness for the fullmove fix at concrete FENs: a zero fullmove counter
is bumped to one with all other fields intact, a valid FEN and a
five-field string pass through unchanged. -/
theorem c6_fen_fullmove_fix_witness :
    fixFEN "6k1/5pp1/7p/3p4/b7/6P1/5PKP/3R4 w - - 0 0"
        = "6k1/5pp1/7p/3p4/b7/6P1/5PKP/3R4 w - - 0 1"
    ∧ fixFEN "6k1/5pp1/7p/3p4/b7/6P1/5PKP/3R4 w - - 0 1"
        = "6k1/5pp1/7p/3p4/b7/6P1/5PKP/3R4 w - - 0 1"
    ∧ fixFEN "k7/8/8/8/8/8/4P3/K7 w - - 0" = "k7/8/8/8/8/8/4P3/K7 w - - 0" :=
  ⟨by rw [c6_fen_fullmove_fix.1 "6k1/5pp1/7p/3p4/b7/6P1/5PKP/3R4 w - - 0 0" (by decide)
      (by decide)]; decide,
   c6_fen_fullmove_fix.2.1 "6k1/5pp1/7p/3p4/b7/6P1/5PKP/3R4 w - - 0 1" 1 (by decide)
     (by decide) (by decide),
   c6_fen_fullmove_fix.2.2 "k7/8/8/8/8/8/4P3/K7 w - - 0" (by decide)⟩

/-! ### Claims C7 and C8: the move decoder -/

/-- Helper: a record is counted as usable when its decoder call returns a
non-empty solution (and in particular does not throw). -/
def decodedNonempty (E : RulesEngine) (r : RawPuzzle) : Bool :=
  match parseMoves E r.fen r.moves with
  | .ok l => decide (l ≠ [])
  | .error _ => false

/-- Helper: a FEN with at least two space-separated fields never makes
`calculateOrientation` throw. -/
theorem calculateOrientation_isOk (fen : String) (ty : PuzzleType)
    (hlen : 2 ≤ (jsSplit ' ' fen).length) :
    ∃ o, calculateOrientation fen ty = .ok o := by
  unfold calculateOrientation
  rw [if_neg (by omega)]
  cases ty
  · exact ⟨_, rfl⟩
  · exact ⟨_, rfl⟩

/-- Helper: a successfully applied token appends exactly one coordinate
pair and the replay continues from the advanced engine state. -/
theorem replay_cons_ok (E : RulesEngine) (st st' : E.State) (mv : DecodedMove)
    (t : String) (ts : List String) (ht : jsTrim t ≠ "")
    (hm : E.move st (jsTrim t) = some (st', mv)) :
    replay E st (t :: ts) = mv :: replay E st' ts := by
  simp only [replay]
  rw [if_neg ht, hm]

/-- Helper: a rejected token is skipped and the replay continues from the
unchanged engine state. -/
theorem replay_cons_fail (E : RulesEngine) (st : E.State) (t : String) (ts : List String)
    (ht : jsTrim t ≠ "") (hm : E.move st (jsTrim t) = none) :
    replay E st (t :: ts) = replay E st ts := by
  simp only [replay]
  rw [if_neg ht, hm]

/-- Helper: a record whose decoder call returns a non-empty solution and
whose orientation computes is assembled into exactly one puzzle. -/
theorem buildPuzzles_cons_ok (E : RulesEngine) (info : CollectionInfo) (motive : String)
    (r : RawPuzzle) (rest : List RawPuzzle) (l : List DecodedMove) (o : Orientation)
    (hpm : parseMoves E r.fen r.moves = .ok l) (hne : l ≠ [])
    (ho : calculateOrientation r.fen info.defaultType = .ok o) :
    buildPuzzles E info motive (r :: rest) =
      ({ puzzleId := "", fen := r.fen, type := info.defaultType, orientation := o,
         solution := l, source := info.source, motive := motive }, r.originalId)
        :: buildPuzzles E info motive rest := by
  simp only [buildPuzzles]
  rw [hpm]
  simp only [if_neg (show ¬ l.length = 0 by simpa using hne)]
  rw [ho]

/-- Claim C7, counterexample.  `new Chess(fen)` sits outside every
try/catch inside `parseMoves`, so a starting position the rules engine
rejects at initialisation makes the decoder throw instead of returning a
sequence; here with an engine that rejects this malformed FEN exactly as
chess.js does. -/
theorem c7_decoder_throws_on_rejected_position :
    parseMoves rejectInitEngine "not a position" "1. e4 *"
      = .error "Invalid FEN: not a position" := rfl

/-- Claim C7, amended: for every starting position the rules engine
accepts at initialisation and every raw moves string, the decoder returns
an ordered sequence of decoded moves and never throws; a token the engine
rejects is silently dropped (the replay continues with the same engine
state) rather than failing the call. -/
theorem c7_decoder_total_on_accepted_positions :
    (∀ (E : RulesEngine) (fen movesString : String) (st : E.State),
      E.init fen = some st → ∃ l, parseMoves E fen movesString = .ok l)
    ∧ (∀ (E : RulesEngine) (st : E.State) (t : String) (ts : List String),
      jsTrim t ≠ "" → E.move st (jsTrim t) = none →
      replay E st (t :: ts) = replay E st ts) := by
  constructor
  · intro E fen movesString st hinit
    unfold parseMoves
    rw [hinit]
    exact ⟨_, rfl⟩
  · intro E st t ts ht hm
    exact replay_cons_fail E st t ts ht hm

/-- Witness for the amended decoder totality at a concrete engine. -/
theorem c7_decoder_total_on_accepted_positions_witness :
    (∃ l, parseMoves noMoveEngine "k7/8/8/8/8/8/4P3/K7 w - - 0 1" "1. e4 *" = .ok l)
    ∧ replay abEngine 0 ["zz", "a"] = replay abEngine 0 ["a"] :=
  ⟨c7_decoder_total_on_accepted_positions.1 noMoveEngine _ "1. e4 *" 0 rfl,
   c7_decoder_total_on_accepted_positions.2 abEngine 0 "zz" ["a"] (by decide) (by decide)⟩

/-- Claim C8, confirmed: the replay loop is strictly sequential — a
successfully applied token appends exactly one origin/destination pair
and advances the engine, a rejected token is skipped with the engine
state retained; the resulting solution length equals the number of
legally replayable tokens under that sequential semantics, both for the
bare loop and for a full `parseMoves` call on an accepted position; and
the assembler emits exactly one puzzle per segment whose decoded solution
is non-empty. -/
theorem c8_replay_semantics :
    (∀ (E : RulesEngine) (st st' : E.State) (mv : DecodedMove) (t : String) (ts : List String),
      jsTrim t ≠ "" → E.move st (jsTrim t) = some (st', mv) →
      replay E st (t :: ts) = mv :: replay E st' ts)
    ∧ (∀ (E : RulesEngine) (st : E.State) (t : String) (ts : List String),
      jsTrim t ≠ "" → E.move st (jsTrim t) = none →
      replay E st (t :: ts) = replay E st ts)
    ∧ (∀ (E : RulesEngine) (st : E.State) (ts : List String),
      (replay E st ts).length = legalCount E st ts)
    ∧ (∀ (E : RulesEngine) (fen movesString : String) (st : E.State),
      E.init fen = some st →
      ∃ l, parseMoves E fen movesString = .ok l
        ∧ l.length = legalCount E st (moveTokens movesString))
    ∧ (∀ (E : RulesEngine) (info : CollectionInfo) (motive : String) (r : RawPuzzle)
        (rest : List RawPuzzle) (l : List DecodedMove) (o : Orientation),
      parseMoves E r.fen r.moves = .ok l → l ≠ [] →
      calculateOrientation r.fen info.defaultType = .ok o →
      buildPuzzles E info motive (r :: rest) =
        ({ puzzleId := "", fen := r.fen, type := info.defaultType, orientation := o,
           solution := l, source := info.source, motive := motive }, r.originalId)
          :: buildPuzzles E info motive rest)
    ∧ (∀ (E : RulesEngine) (info : CollectionInfo) (motive : String) (raws : List RawPuzzle),
      (∀ r ∈ raws, 2 ≤ (jsSplit ' ' r.fen).length) →
      (buildPuzzles E info motive raws).length = raws.countP (decodedNonempty E)) := by
  have hlen : ∀ (E : RulesEngine) (st : E.State) (ts : List String),
      (replay E st ts).length = legalCount E st ts := by
    intro E st ts
    induction ts generalizing st with
    | nil => rfl
    | cons t ts ih =>
      simp only [replay, legalCount]
      by_cases ht : jsTrim t = ""
      · rw [if_pos ht, if_pos ht]
        exact ih st
      · rw [if_neg ht, if_neg ht]
        cases hm : E.move st (jsTrim t) with
        | none => exact ih st
        | some p => simp only [List.length_cons, ih p.1]
  refine ⟨?_, ?_, hlen, ?_, ?_, ?_⟩
  · intro E st st' mv t ts ht hm
    exact replay_cons_ok E st st' mv t ts ht hm
  · intro E st t ts ht hm
    exact replay_cons_fail E st t ts ht hm
  · intro E fen movesString st hinit
    unfold parseMoves
    rw [hinit]
    exact ⟨_, rfl, hlen E st (moveTokens movesString)⟩
  · intro E info motive r rest l o hpm hne ho
    exact buildPuzzles_cons_ok E info motive r rest l o hpm hne ho
  · intro E info motive raws hfen
    induction raws with
    | nil => rfl
    | cons r rest ih =>
      have hr : 2 ≤ (jsSplit ' ' r.fen).length := hfen r (List.mem_cons_self r rest)
      have hrest : ∀ r' ∈ rest, 2 ≤ (jsSplit ' ' r'.fen).length :=
        fun r' h => hfen r' (List.mem_cons_of_mem r h)
      simp only [buildPuzzles, List.countP_cons]
      cases hpm : parseMoves E r.fen r.moves with
      | error e =>
        have hd : decodedNonempty E r = false := by unfold decodedNonempty; rw [hpm]
        rw [hd]
        simpa using ih hrest
      | ok l =>
        by_cases hl : l = []
        · have hd : decodedNonempty E r = false := by
            unfold decodedNonempty
            rw [hpm, hl]
            simp
          subst hl
          simp [hd, ih hrest]
        · have hd : decodedNonempty E r = true := by
            unfold decodedNonempty
            rw [hpm]
            simpa using hl
          have h0 : ¬ (l.length = 0) := by simpa using hl
          obtain ⟨o, ho⟩ := calculateOrientation_isOk r.fen info.defaultType hr
          simp [hd, h0, ho, ih hrest]

/-- Witness for the replay semantics at a concrete two-move engine: the
token list contains one rejected token between two legal moves. -/
theorem c8_replay_semantics_witness :
    replay abEngine 0 ["a", "b"] = ⟨"a2", "a4"⟩ :: replay abEngine 1 ["b"]
    ∧ replay abEngine 1 ["zz", "b"] = replay abEngine 1 ["b"]
    ∧ (replay abEngine 0 ["a", "zz", "b"]).length = legalCount abEngine 0 ["a", "zz", "b"]
    ∧ (∃ l, parseMoves abEngine "F w" "1. a zz b *" = .ok l
        ∧ l.length = legalCount abEngine 0 (moveTokens "1. a zz b *"))
    ∧ (buildPuzzles abEngine ⟨"c", "C", "s", "P", .static, none⟩ "M"
         [⟨"F w", "1. a b *", "7"⟩, ⟨"F w", "zz9 zz8", "8"⟩]).length
        = List.countP (decodedNonempty abEngine)
            [⟨"F w", "1. a b *", "7"⟩, ⟨"F w", "zz9 zz8", "8"⟩] :=
  ⟨c8_replay_semantics.1 abEngine 0 1 ⟨"a2", "a4"⟩ "a" ["b"] (by decide) (by decide),
   c8_replay_semantics.2.1 abEngine 1 "zz" ["b"] (by decide) (by decide),
   c8_replay_semantics.2.2.1 abEngine 0 ["a", "zz", "b"],
   c8_replay_semantics.2.2.2.1 abEngine "F w" "1. a zz b *" 0 (by decide),
   c8_replay_semantics.2.2.2.2.2 abEngine ⟨"c", "C", "s", "P", .static, none⟩ "M"
     [⟨"F w", "1. a b *", "7"⟩, ⟨"F w", "zz9 zz8", "8"⟩] (by decide)⟩

/-! ### Claim C9: the tokenizer emission rule -/

/-- JavaScript truthiness of the `currentFen` accumulator: a string is
truthy when it is non-empty, `null` is falsy. -/
def fenTruthy (o : Option String) : Bool :=
  match o with
  | some f => f ≠ ""
  | none => false

/-- Helper: `savePuzzle` keeps the invariant that the emitted-record
counter equals the number of emitted records. -/
theorem savePuzzle_invariant (st : ParseState) (h : st.puzzleIndex = st.puzzles.length) :
    (savePuzzle st).puzzleIndex = (savePuzzle st).puzzles.length := by
  unfold savePuzzle
  split
  · split
    · simp [h]
    · simpa using h
  · simpa using h

/-- Helper: every line-processing step keeps the counter invariant. -/
theorem stepLine_invariant (st : ParseState) (line : String)
    (h : st.puzzleIndex = st.puzzles.length) :
    (stepLine st line).puzzleIndex = (stepLine st line).puzzles.length := by
  have hs := savePuzzle_invariant st h
  simp only [stepLine]
  split
  · split
    · simpa using hs
    · exact hs
  · split
    · exact hs
    · split
      · split
        · split
          · simpa using h
          · exact h
        · exact h
      · split
        · exact h
        · split
          · exact h
          · simpa using h

/-- Claim C9, confirmed.  Conjuncts, in order: every finalize resets the
current FEN, the current original id and the moves buffer; a finalize
appends exactly one record when a truthy FEN and a non-empty moves buffer
are present and none otherwise; the only line shapes that can emit are an
`OriginalID` tag line and an `Event` tag line (any other line leaves the
emitted records unchanged; end of input finalises by definition of
`parsePGN`); the scan preserves `puzzleIndex = puzzles.length` from the
initial state; and under that invariant an id-less finalize stores as
original id the decimal 1-based position of the new record among the
emitted records of the file. -/
theorem c9_tokenizer_emission_rule :
    (∀ st : ParseState, (savePuzzle st).currentFen = none
      ∧ (savePuzzle st).currentOriginalId = none ∧ (savePuzzle st).currentMoves = [])
    ∧ (∀ st : ParseState, (savePuzzle st).puzzles.length =
        st.puzzles.length +
          (if fenTruthy st.currentFen = true ∧ st.currentMoves ≠ [] then 1 else 0))
    ∧ (∀ (st : ParseState) (line : String),
        (jsStartsWith (jsTrim line) "[OriginalID" = true →
          (stepLine st line).puzzles = (savePuzzle st).puzzles)
        ∧ (jsStartsWith (jsTrim line) "[OriginalID" = false →
            jsStartsWith (jsTrim line) "[Event" = true →
          stepLine st line = savePuzzle st)
        ∧ (jsStartsWith (jsTrim line) "[OriginalID" = false →
            jsStartsWith (jsTrim line) "[Event" = false →
          (stepLine st line).puzzles = st.puzzles))
    ∧ (∀ (lines : List String) (st : ParseState), st.puzzleIndex = st.puzzles.length →
        (lines.foldl stepLine st).puzzleIndex = (lines.foldl stepLine st).puzzles.length)
    ∧ (∀ (st : ParseState) (f : String), st.puzzleIndex = st.puzzles.length →
        st.currentFen = some f → f ≠ "" → st.currentMoves ≠ [] →
        st.currentOriginalId = none →
        (savePuzzle st).puzzles = st.puzzles ++
          [{ fen := f, moves := jsTrim (jsJoin " " st.currentMoves),
             originalId := toString (st.puzzles.length + 1) }]) := by
  refine ⟨?_, ?_, ?_, ?_, ?_⟩
  · intro st
    unfold savePuzzle
    split
    · split
      · exact ⟨rfl, rfl, rfl⟩
      · exact ⟨rfl, rfl, rfl⟩
    · exact ⟨rfl, rfl, rfl⟩
  · intro st
    unfold savePuzzle
    cases hf : st.currentFen with
    | none => simp [fenTruthy, hf]
    | some f =>
      by_cases hc : f ≠ "" ∧ st.currentMoves ≠ []
      · have ht : fenTruthy (some f) = true ∧ st.currentMoves ≠ [] :=
          ⟨by simpa [fenTruthy] using hc.1, hc.2⟩
        rw [if_pos ht]
        simp [hc.1, hc.2]
      · have ht : ¬ (fenTruthy (some f) = true ∧ st.currentMoves ≠ []) := by
          rintro ⟨h1, h2⟩
          exact hc ⟨by simpa [fenTruthy] using h1, h2⟩
        rw [if_neg ht]
        simp only [if_neg hc]
        simp
  · intro st line
    refine ⟨?_, ?_, ?_⟩
    · intro ho
      simp only [stepLine]
      rw [if_pos ho]
      split
      · rfl
      · rfl
    · intro ho he
      simp only [stepLine]
      rw [if_neg (by simp [ho]), if_pos he]
    · intro ho he
      simp only [stepLine]
      rw [if_neg (by simp [ho]), if_neg (by simp [he])]
      split
      · split
        · split
          · rfl
          · rfl
        · rfl
      · split
        · rfl
        · split
          · rfl
          · rfl
  · intro lines
    induction lines with
    | nil => intro st h; exact h
    | cons l ls ih =>
      intro st h
      exact ih (stepLine st l) (stepLine_invariant st l h)
  · intro st f hinv hfen hne hmv hid
    unfold savePuzzle
    rw [hfen]
    simp only [if_pos (show f ≠ "" ∧ st.currentMoves ≠ [] from ⟨hne, hmv⟩),
      hid, origIdOr, hinv]

/-- Witness for the emission rule at a concrete tokenizer state and at
concrete tag lines. -/
theorem c9_tokenizer_emission_rule_witness :
    ((savePuzzle ⟨some "8/8 w", none, ["e4"], 0, []⟩).currentFen = none
      ∧ (savePuzzle ⟨some "8/8 w", none, ["e4"], 0, []⟩).currentOriginalId = none
      ∧ (savePuzzle ⟨some "8/8 w", none, ["e4"], 0, []⟩).currentMoves = [])
    ∧ (savePuzzle ⟨some "8/8 w", none, ["e4"], 0, []⟩).puzzles.length =
        ([] : List RawPuzzle).length +
          (if fenTruthy (some "8/8 w") = true ∧ (["e4"] : List String) ≠ [] then 1 else 0)
    ∧ stepLine ⟨some "8/8 w", none, ["e4"], 0, []⟩ "[Event \"?\"]"
        = savePuzzle ⟨some "8/8 w", none, ["e4"], 0, []⟩
    ∧ (stepLine ⟨some "8/8 w", none, ["e4"], 0, []⟩ "e5 d4").puzzles = []
    ∧ ((["[Event \"?\"]"] : List String).foldl stepLine initParseState).puzzleIndex
        = ((["[Event \"?\"]"] : List String).foldl stepLine initParseState).puzzles.length
    ∧ (savePuzzle ⟨some "8/8 w", none, ["e4"], 0, []⟩).puzzles =
        [{ fen := "8/8 w", moves := jsTrim (jsJoin " " ["e4"]),
           originalId := toString (0 + 1) }] :=
  ⟨c9_tokenizer_emission_rule.1 ⟨some "8/8 w", none, ["e4"], 0, []⟩,
   c9_tokenizer_emission_rule.2.1 ⟨some "8/8 w", none, ["e4"], 0, []⟩,
   (c9_tokenizer_emission_rule.2.2.1 ⟨some "8/8 w", none, ["e4"], 0, []⟩ "[Event \"?\"]").2.1
     (by decide) (by decide),
   (c9_tokenizer_emission_rule.2.2.1 ⟨some "8/8 w", none, ["e4"], 0, []⟩ "e5 d4").2.2
     (by decide) (by decide),
   c9_tokenizer_emission_rule.2.2.2.1 ["[Event \"?\"]"] initParseState rfl,
   c9_tokenizer_emission_rule.2.2.2.2 ⟨some "8/8 w", none, ["e4"], 0, []⟩ "8/8 w" rfl rfl
     (by decide) (by decide) rfl⟩

/-! ### Claim C2: puzzle-id uniqueness -/

/-- The collection metadata of the end-to-end scenario of the spec,
section 8: prefix `MC`, default type `static`, no `puzzlesPerFile`. -/
def mcInfo : CollectionInfo :=
  { id := "mc", name := "Miniature Checkmates", source := "src",
    puzzleIdPfx := "MC", defaultType := .static, puzzlesPerFile := none }

/-- A PGN file in which the first record carries the explicit tag
`OriginalID "2"` and the second record is id-less: the second emitted
record receives ordinal 2, colliding with the explicit id. -/
def dupContent : String :=
  "[OriginalID \"2\"]\n[FEN \"k7/8/8/8/8/8/4P3/K7 w - - 0 1\"]\n1. e4 *\n[Event \"?\"]\n[FEN \"k7/8/8/8/8/8/4P3/K7 w - - 0 1\"]\n1. e4 *"

/-- Claim C2, counterexample: mixing an explicit `OriginalID` with
ordinal numbering in one file yields two distinct puzzles with the
identical id `MC-01-2`, so puzzle ids are not globally unique within the
build. -/
theorem c2_duplicate_puzzleId_counterexample :
    puzzleIdsOf (processPgnFile e4Engine mcInfo "01_x.pgn" dupContent)
      = ["MC-01-2", "MC-01-2"]
    ∧ ¬ (puzzleIdsOf (processPgnFile e4Engine mcInfo "01_x.pgn" dupContent)).Pairwise (· ≠ ·) := by
  constructor
  · rfl
  · intro h
    have := (by rfl :
      puzzleIdsOf (processPgnFile e4Engine mcInfo "01_x.pgn" dupContent)
        = ["MC-01-2", "MC-01-2"])
    rw [this] at h
    exact (List.pairwise_cons.mp h).1 "MC-01-2" (by simp) rfl

/-- Helper: appending on the left of a string is injective. -/
theorem strAppend_cancel_left (a x y : String) (h : a ++ x = a ++ y) : x = y := by
  have hd := congrArg String.data h
  rw [String.data_append, String.data_append] at hd
  exact String.ext (List.append_cancel_left hd)

/-- Claim C2, amended: every puzzle id is derived deterministically as
`{prefix}-{fileNumber}-{originalId}` (single-chunk case); within one
single-chunk file the puzzle ids are pairwise distinct exactly when the
emitted records' original ids are pairwise distinct.  Global uniqueness
as claimed fails when a file mixes explicit `OriginalID` tags with
ordinal numbering (the counterexample). -/
theorem c2_id_derivation_and_conditional_uniqueness :
    ∀ (info : CollectionInfo) (fileNumber motiveSlug motive : String)
      (c : List (Puzzle × String)), c ≠ [] →
      puzzleIdsOf (processChunks info fileNumber motiveSlug motive false 0 [c])
        = c.map (fun pr => info.puzzleIdPfx ++ "-" ++ fileNumber ++ "-" ++ pr.2)
      ∧ ((puzzleIdsOf (processChunks info fileNumber motiveSlug motive false 0 [c])).Pairwise
            (· ≠ ·)
          ↔ (c.map (fun pr => pr.2)).Pairwise (· ≠ ·)) := by
  intro info fn slug motive c hne
  obtain ⟨p, ps, rfl⟩ : ∃ p ps, c = p :: ps := by
    cases c with
    | nil => exact absurd rfl hne
    | cons p ps => exact ⟨p, ps, rfl⟩
  obtain ⟨last, hlast⟩ : ∃ y, (p :: ps).getLast? = some y := by
    cases h : (p :: ps).getLast? with
    | none => exact absurd (List.getLast?_eq_none_iff.mp h) (by simp)
    | some y => exact ⟨y, rfl⟩
  have h1 : puzzleIdsOf (processChunks info fn slug motive false 0 [p :: ps])
      = (p :: ps).map (fun pr => info.puzzleIdPfx ++ "-" ++ fn ++ "-" ++ pr.2) := by
    simp only [processChunks, List.head?_cons, hlast]
    simp [puzzleIdsOf, Except.map, List.map_map]
  refine ⟨h1, ?_⟩
  rw [h1, List.pairwise_map, List.pairwise_map]
  constructor
  · intro h
    exact h.imp (fun hab heq => hab (by rw [heq]))
  · intro h
    refine h.imp (fun hab heq => hab ?_)
    exact strAppend_cancel_left (info.puzzleIdPfx ++ "-" ++ fn ++ "-") _ _ heq

/-- A puzzle value used to instantiate the id-derivation witness. -/
def dPz : Puzzle :=
  { puzzleId := "", fen := "8/8 w - - 0 1", type := .static, orientation := .white,
    solution := [⟨"e2", "e4"⟩], source := "s", motive := "m" }

/-- Witness for the amended id derivation at a concrete two-record
chunk with distinct original ids. -/
theorem c2_id_derivation_and_conditional_uniqueness_witness :
    puzzleIdsOf (processChunks mcInfo "01" "x" "X" false 0 [[(dPz, "7"), (dPz, "8")]])
      = ["MC-01-7", "MC-01-8"]
    ∧ ((puzzleIdsOf (processChunks mcInfo "01" "x" "X" false 0 [[(dPz, "7"), (dPz, "8")]])).Pairwise
          (· ≠ ·)
        ↔ (([(dPz, "7"), (dPz, "8")] : List (Puzzle × String)).map
            (fun pr => pr.2)).Pairwise (· ≠ ·)) :=
  c2_id_derivation_and_conditional_uniqueness mcInfo "01" "x" "X"
    [(dPz, "7"), (dPz, "8")] (by decide)

/-! ### Claim C4: identifier and naming formats, and the end-to-end
scenario of the spec, section 8 -/

/-- Helper: `processPgnFile` on a filename with a numeric prefix is the
chunk loop applied to the assembled, chunked puzzles. -/
theorem processPgnFile_eq (E : RulesEngine) (info : CollectionInfo)
    (pgnFile content fn : String) (hfn : extractFileNumber pgnFile = some fn) :
    processPgnFile E info pgnFile content =
      processChunks info fn (extractMotiveSlug pgnFile) (extractMotive pgnFile)
        (decide (1 < (splitIntoChunks
            (buildPuzzles E info (extractMotive pgnFile) (parsePGN content))
            (chunkSizeOf info.puzzlesPerFile
              (buildPuzzles E info (extractMotive pgnFile) (parsePGN content)).length)).length))
        0
        (splitIntoChunks (buildPuzzles E info (extractMotive pgnFile) (parsePGN content))
          (chunkSizeOf info.puzzlesPerFile
            (buildPuzzles E info (extractMotive pgnFile) (parsePGN content)).length)) := by
  unfold processPgnFile
  rw [hfn]

/-- The FEN of the end-to-end scenario of the spec, section 8. -/
def pinFEN : String := "6k1/5pp1/7p/3p4/b7/6P1/5PKP/3R4 w - - 0 1"

/-- The PGN content of the end-to-end scenario: one FEN tag, one moves
line, no `OriginalID`. -/
def pinContent : String :=
  "[FEN \"6k1/5pp1/7p/3p4/b7/6P1/5PKP/3R4 w - - 0 1\"]\n1. Rd1-d5 Ba4-c6 *"

/-- Claim C4, confirmed.  Conjuncts: in the single-chunk case every
puzzle id is `{prefix}-{fileNumber}-{originalId}`, the filename is
`{fileNumber}_{motiveSlug}.json` and the display name is the bare motive
(no part suffix anywhere); in the multi-chunk case chunk `i` (zero-based)
carries the 1-based part number `i+1` in ids
(`{prefix}-{fileNumber}-{partNumber}-{originalId}`) and filename
(`{fileNumber}-{partNumber}_{motiveSlug}.json`), and its display name is
`{motive} ({firstOriginalId}-{lastOriginalId})`; and the end-to-end
scenario (file `01_pin.pgn`, prefix `MC`, no `OriginalID`, no
`puzzlesPerFile`, any engine replaying the two scenario moves) yields one
puzzle with id `MC-01-1`, motive `Pin`, orientation white and a
two-move solution. -/
theorem c4_naming_formats_and_end_to_end :
    (∀ (info : CollectionInfo) (fn slug motive : String) (p : Puzzle × String)
      (ps : List (Puzzle × String)),
      processChunks info fn slug motive false 0 [p :: ps] =
        .ok [(⟨fn ++ "_" ++ slug, motive, fn ++ "_" ++ slug ++ ".json"⟩,
              ⟨"data/" ++ info.id ++ "/" ++ (fn ++ "_" ++ slug ++ ".json"),
               (p :: ps).map (fun pr =>
                 { pr.1 with puzzleId := info.puzzleIdPfx ++ "-" ++ fn ++ "-" ++ pr.2 })⟩)])
    ∧ (∀ (info : CollectionInfo) (fn slug motive : String) (i : Nat) (p last : Puzzle × String)
        (ps : List (Puzzle × String)) (rest : List (List (Puzzle × String))),
      (p :: ps).getLast? = some last →
      processChunks info fn slug motive true i ((p :: ps) :: rest) =
        Except.map
          (fun es =>
            (⟨fn ++ "-" ++ toString (i + 1) ++ "_" ++ slug,
              motive ++ " (" ++ p.2 ++ "-" ++ last.2 ++ ")",
              fn ++ "-" ++ toString (i + 1) ++ "_" ++ slug ++ ".json"⟩,
             ⟨"data/" ++ info.id ++ "/" ++ (fn ++ "-" ++ toString (i + 1) ++ "_" ++ slug ++ ".json"),
              (p :: ps).map (fun pr =>
                { pr.1 with puzzleId :=
                    info.puzzleIdPfx ++ "-" ++ fn ++ "-" ++ toString (i + 1) ++ "-" ++ pr.2 })⟩)
              :: es)
          (processChunks info fn slug motive true (i + 1) rest))
    ∧ (∀ (E : RulesEngine) (s0 s1 s2 : E.State),
      E.init pinFEN = some s0 →
      E.move s0 "Rd1-d5" = some (s1, ⟨"d1", "d5"⟩) →
      E.move s1 "Ba4-c6" = some (s2, ⟨"a4", "c6"⟩) →
      processPgnFile E mcInfo "01_pin.pgn" pinContent =
        .ok [(⟨"01_pin", "Pin", "01_pin.json"⟩,
              ⟨"data/mc/01_pin.json",
               [{ puzzleId := "MC-01-1", fen := pinFEN, type := .static,
                  orientation := .white,
                  solution := [⟨"d1", "d5"⟩, ⟨"a4", "c6"⟩],
                  source := "src", motive := "Pin" }]⟩)]) := by
  refine ⟨?_, ?_, ?_⟩
  · intro info fn slug motive p ps
    obtain ⟨last, hlast⟩ : ∃ y, (p :: ps).getLast? = some y := by
      cases h : (p :: ps).getLast? with
      | none => exact absurd (List.getLast?_eq_none_iff.mp h) (by simp)
      | some y => exact ⟨y, rfl⟩
    simp only [processChunks, List.head?_cons, hlast]
    rfl
  · intro info fn slug motive i p last ps rest hlast
    simp only [processChunks, List.head?_cons, hlast]
    simp
  · intro E s0 s1 s2 h0 h1 h2
    have hparse : parsePGN pinContent = [⟨pinFEN, "1. Rd1-d5 Ba4-c6 *", "1"⟩] := rfl
    have htok : moveTokens "1. Rd1-d5 Ba4-c6 *" = ["Rd1-d5", "Ba4-c6"] := rfl
    have hpm : parseMoves E pinFEN "1. Rd1-d5 Ba4-c6 *"
        = .ok [⟨"d1", "d5"⟩, ⟨"a4", "c6"⟩] := by
      unfold parseMoves
      rw [h0]
      show Except.ok (replay E s0 (moveTokens "1. Rd1-d5 Ba4-c6 *"))
        = Except.ok [⟨"d1", "d5"⟩, ⟨"a4", "c6"⟩]
      rw [htok]
      rw [replay_cons_ok E s0 s1 ⟨"d1", "d5"⟩ "Rd1-d5" ["Ba4-c6"] (by decide) h1]
      rw [replay_cons_ok E s1 s2 ⟨"a4", "c6"⟩ "Ba4-c6" [] (by decide) h2]
      rfl
    have hbuild : buildPuzzles E mcInfo "Pin" [⟨pinFEN, "1. Rd1-d5 Ba4-c6 *", "1"⟩]
        = [({ puzzleId := "", fen := pinFEN, type := .static, orientation := .white,
              solution := [⟨"d1", "d5"⟩, ⟨"a4", "c6"⟩],
              source := "src", motive := "Pin" }, "1")] := by
      rw [buildPuzzles_cons_ok E mcInfo "Pin" ⟨pinFEN, "1. Rd1-d5 Ba4-c6 *", "1"⟩ []
        [⟨"d1", "d5"⟩, ⟨"a4", "c6"⟩] .white hpm (by decide) rfl]
      rfl
    rw [processPgnFile_eq E mcInfo "01_pin.pgn" pinContent "01" rfl]
    rw [show extractMotive "01_pin.pgn" = "Pin" from rfl]
    rw [show extractMotiveSlug "01_pin.pgn" = "pin" from rfl]
    rw [hparse, hbuild]
    rfl

/-- Witness for the naming formats and the end-to-end scenario at
concrete inputs: a one-record single chunk, a two-record second chunk
(part number 2), and the full section-8 pipeline with the concrete
two-move engine. -/
theorem c4_naming_formats_and_end_to_end_witness :
    processChunks mcInfo "01" "pin" "Pin" false 0 [[(dPz, "1")]]
      = .ok [(⟨"01_pin", "Pin", "01_pin.json"⟩,
              ⟨"data/mc/01_pin.json", [{ dPz with puzzleId := "MC-01-1" }]⟩)]
    ∧ processChunks mcInfo "02" "fork" "Fork" true 1 [[(dPz, "3"), (dPz, "4")]]
      = .ok [(⟨"02-2_fork", "Fork (3-4)", "02-2_fork.json"⟩,
              ⟨"data/mc/02-2_fork.json",
               [{ dPz with puzzleId := "MC-02-2-3" }, { dPz with puzzleId := "MC-02-2-4" }]⟩)]
    ∧ processPgnFile pinEngine mcInfo "01_pin.pgn" pinContent =
        .ok [(⟨"01_pin", "Pin", "01_pin.json"⟩,
              ⟨"data/mc/01_pin.json",
               [{ puzzleId := "MC-01-1", fen := pinFEN, type := .static,
                  orientation := .white,
                  solution := [⟨"d1", "d5"⟩, ⟨"a4", "c6"⟩],
                  source := "src", motive := "Pin" }]⟩)] :=
  ⟨by rw [c4_naming_formats_and_end_to_end.1 mcInfo "01" "pin" "Pin" (dPz, "1") []]; rfl,
   by rw [c4_naming_formats_and_end_to_end.2.1 mcInfo "02" "fork" "Fork" 1 (dPz, "3")
       (dPz, "4") [(dPz, "4")] [] rfl]; rfl,
   c4_naming_formats_and_end_to_end.2.2 pinEngine 0 1 2 rfl rfl rfl⟩

/-! ### Claim C1: error propagation -/

/-- A PGN file with one record whose single move token is not a legal
move: the record decodes to an empty solution and is skipped. -/
def noMovesContent : String :=
  "[FEN \"k7/8/8/8/8/8/4P3/K7 w - - 0 1\"]\n1. Zz9 *"

/-- Claim C1: the code crashes where the claim (and the spec's error
taxonomy) promises a skip.  The file parses into one record; the record
is skipped because no move decodes, leaving an empty usable-puzzle list;
with `puzzlesPerFile` unset the chunk size becomes 0, `splitIntoChunks`
yields one empty chunk, and the chunk loop's unguarded `chunk[0].originalId`
access throws a `TypeError` that no enclosing handler catches, aborting
the whole build instead of skipping the file. -/
theorem c1_all_skipped_file_crashes_build :
    parsePGN noMovesContent = [⟨"k7/8/8/8/8/8/4P3/K7 w - - 0 1", "1. Zz9 *", "1"⟩]
    ∧ buildPuzzles noMoveEngine mcInfo "Pin" (parsePGN noMovesContent) = []
    ∧ processPgnFile noMoveEngine mcInfo "01_pin.pgn" noMovesContent
        = .error "TypeError: Cannot read properties of undefined (reading 'originalId')" :=
  ⟨rfl, rfl, rfl⟩

end Czesia
